import Mathlib

/-!
Shallow embedding of the alert lifecycle engine of CRYPTO_MONITOR.

Rust f64 prices are modelled as rationals; network and database effects are
modelled by explicit oracles and event traces.  Every definition mirrors the
corresponding item in the Rust source (file and function named in its doc
comment).
-/

namespace CryptoMonitor

/-- models.rs, enum AlertCondition. -/
inductive AlertCondition
  | Above
  | Below
deriving DecidableEq, Repr

/-- models.rs, enum AlertType.  Prices and percentages are rationals. -/
inductive AlertType
  | Price (target_price : ℚ) (condition : AlertCondition)
  | Depeg (target_price : ℚ) (differential : ℚ) (exchanges : List String)
  | PairDepeg (token1 : String) (token2 : String) ( expected_ratio : ℚ) (differential : ℚ)
deriving DecidableEq, Repr

/-- The PriceAlert record as used by monitor.rs, db.rs and bot.rs: an
optional row id, the owner, the symbol, the alert variant, and the
lifecycle fields. -/
structure PriceAlert where
  id : Option ℤ
  user_id : ℤ
  symbol : String
  alert_type : AlertType
  created_at : Option ℤ
  triggered_at : Option ℤ
  is_active : Bool
deriving DecidableEq, Repr

/-- models.rs, struct CryptoPrice (one fetched sample). -/
structure CryptoPrice where
  symbol : String
  price : ℚ
  exchange : String
  timestamp : ℤ
deriving DecidableEq, Repr

/-! crypto_api.rs.  The HTTP layer is abstracted by an oracle giving, for
each (symbol, exchange, attempt index), the price obtained by that attempt
(`none` = the attempt failed: connection error, bad status or bad body). -/

/-- Network oracle: symbol, exchange, attempt index, optional price. -/
def Fetcher : Type := String → String → ℕ → Option ℚ

/-- crypto_api.rs, struct CryptoAPI (the two fields the fetch logic reads). -/
structure CryptoAPI where
  symbol_to_id : List (String × String)
  supported_exchanges : List String

/-- crypto_api.rs, MAX_RETRIES constant of get_price_from_exchange. -/
def MAX_RETRIES : ℕ := 3

/-- Lookup in the symbol-to-coin-id map (HashMap::get). -/
def assoc_get (m : List (String × String)) (k : String) : Option String :=
  (m.find? (fun p => p.1 == k)).map (fun p => p.2)

/-- Rust str::to_uppercase restricted to ASCII, the alphabet of the symbol
names involved. -/
def to_uppercase (s : String) : String := String.mk (s.data.map Char.toUpper)

/-- The retry loop of get_price_from_exchange: attempts are numbered from 0,
`fuel` many remain; the first attempt whose oracle answer is `some price`
wins and its index is returned. -/
def run_attempts (g : ℕ → Option ℚ) : ℕ → ℕ → Option (ℚ × ℕ)
  | _, 0 => none
  | attempt, fuel + 1 =>
    match g attempt with
    | some p => some (p, attempt)
    | none => run_attempts g (attempt + 1) fuel

/-- Number of attempts the retry loop actually performs. -/
def attempts_made (g : ℕ → Option ℚ) : ℕ → ℕ → ℕ
  | _, 0 => 0
  | attempt, fuel + 1 =>
    match g attempt with
    | some _ => 1
    | none => attempts_made g (attempt + 1) fuel + 1

/-- Number of sleep calls the retry loop performs (the source sleeps at the
top of every attempt whose index is positive). -/
def sleeps_performed (g : ℕ → Option ℚ) : ℕ → ℕ → ℕ
  | _, 0 => 0
  | attempt, fuel + 1 =>
    let here := if 0 < attempt then 1 else 0
    match g attempt with
    | some _ => here
    | none => here + sleeps_performed g (attempt + 1) fuel

/-- crypto_api.rs, CryptoAPI::get_price_from_exchange: reject unsupported
exchanges and unknown symbols, then try up to MAX_RETRIES attempts; all
attempts failing yields an error. -/
def get_price_from_exchange (api : CryptoAPI) (f : Fetcher)
    (symbol exchange : String) (now : ℤ) : Except String CryptoPrice :=
  if ¬ api.supported_exchanges.contains exchange then
    .error ("Exchange no soportado: " ++ exchange)
  else
    match assoc_get api.symbol_to_id (to_uppercase symbol) with
    | none => .error ("Simbolo no soportado: " ++ symbol)
    | some _coin_id =>
      match run_attempts (f symbol exchange) 0 MAX_RETRIES with
      | some (p, _) =>
        .ok { symbol := to_uppercase symbol, price := p, exchange := exchange, timestamp := now }
      | none =>
        .error ("No se pudo obtener el precio para " ++ symbol ++ " en " ++ exchange)

/-- crypto_api.rs, CryptoAPI::get_price: the default exchange is binance. -/
def get_price (api : CryptoAPI) (f : Fetcher) (symbol : String) (now : ℤ) :
    Except String CryptoPrice :=
  get_price_from_exchange api f symbol ("binance") now

/-! monitor.rs. -/

/-- Observable effects of one monitoring tick: a notification send
(send_alert_notification, carrying the price put into the message) and a
mark-triggered store write.  Both carry the id field of the alert. -/
inductive Event
  | notify (alert_id : Option ℤ) (price : ℚ)
  | mark (alert_id : Option ℤ)
deriving DecidableEq, Repr

/-- monitor.rs, PriceMonitor::should_trigger_alert (the pure decision
function). -/
def should_trigger_alert (price : CryptoPrice) (alert : PriceAlert) : Bool :=
  match alert.alert_type with
  | .Price target_price condition =>
    match condition with
    | .Above => decide (price.price > target_price)
    | .Below => decide (price.price < target_price)
  | .Depeg target_price _ _ =>
    decide (|(price.price - target_price) / target_price| * 100 > 0)
  | .PairDepeg _ _ _ _ => false

/-- monitor.rs, the body of the per-alert match inside
PriceMonitor::check_all_alerts, as the list of notify/mark events it emits.
In the Depeg arm the source folds max from negative infinity and min from
positive infinity over the collected prices and only uses the folds under a
non-emptiness guard, which equals folding from the first element. -/
def process_alert (api : CryptoAPI) (f : Fetcher) (now : ℤ)
    (alert : PriceAlert) : List Event :=
  match alert.alert_type with
  | .Price _ _ =>
    match get_price api f alert.symbol now with
    | .ok price =>
      if should_trigger_alert price alert then
        [.notify alert.id price.price, .mark alert.id]
      else []
    | .error _ => []
  | .Depeg target_price _ exchanges =>
    let prices := exchanges.filterMap (fun exchange =>
      match get_price_from_exchange api f alert.symbol exchange now with
      | .ok p => some p.price
      | .error _ => none)
    match prices with
    | [] => []
    | p :: ps =>
      let max_price := ps.foldl max p
      let min_price := ps.foldl min p
      let trigger_price :=
        if |max_price - target_price| > |min_price - target_price| then max_price
        else min_price
      [.notify alert.id trigger_price, .mark alert.id]
  | .PairDepeg token1 token2 er differential =>
    match get_price api f token1 now, get_price api f token2 now with
    | .ok price1, .ok price2 =>
      let current_ratio := price1.price / price2.price
      let deviation := |(current_ratio - er) / er| * 100
      if deviation > differential then
        [.notify alert.id current_ratio, .mark alert.id]
      else []
    | .ok _, .error _ => []
    | .error _, _ => []

/-- monitor.rs, PriceMonitor::check_all_alerts: every active alert is
processed in order; a failing alert only contributes an empty event list. -/
def check_all_alerts (api : CryptoAPI) (f : Fetcher) (now : ℤ)
    (alerts : List PriceAlert) : List Event :=
  (alerts.map (process_alert api f now)).flatten

/-- Outcome of PriceMonitor::start before the first tick: either it
returned the verification error, or it entered the monitoring loop. -/
inductive StartOutcome
  | errored (msg : String)
  | running
deriving DecidableEq, Repr

/-- monitor.rs, PriceMonitor::start: verify_bot is run first and its error,
if any, is returned; only on success does the interval loop begin. -/
def monitor_start (verify_result : Except String Unit) : StartOutcome :=
  match verify_result with
  | .error e => .errored e
  | .ok _ => .running

/-! db.rs.  The price_alerts table is modelled as a list of rows. -/

/-- One row of the price_alerts table (rowids are always present). -/
structure AlertRow where
  id : ℤ
  user_id : ℤ
  symbol : String
  alert_type : AlertType
  created_at : ℤ
  triggered_at : Option ℤ
  is_active : Bool
deriving DecidableEq, Repr

/-- db.rs, the PriceAlert record built from a selected row. -/
def row_to_alert (r : AlertRow) : PriceAlert :=
  { id := some r.id
    user_id := r.user_id
    symbol := r.symbol
    alert_type := r.alert_type
    created_at := some r.created_at
    triggered_at := r.triggered_at
    is_active := r.is_active }

/-- db.rs, Database::get_active_alerts: SELECT rows WHERE is_active = 1 AND
triggered_at IS NULL. -/
def get_active_alerts (db : List AlertRow) : List PriceAlert :=
  (db.filter (fun r => r.is_active && r.triggered_at.isNone)).map row_to_alert

/-- db.rs, Database::mark_alert_triggered: UPDATE price_alerts SET
triggered_at = now, is_active = 0 WHERE id = alert_id. -/
def mark_alert_triggered (db : List AlertRow) (alert_id : ℤ) (now : ℤ) :
    List AlertRow :=
  db.map (fun r =>
    if r.id = alert_id then { r with triggered_at := some now, is_active := false }
    else r)

/-- A sequence of further mark_alert_triggered calls, applied in order. -/
def apply_marks (db : List AlertRow) : List (ℤ × ℤ) → List AlertRow
  | [] => db
  | (aid, now) :: rest => apply_marks (mark_alert_triggered db aid now) rest

/-! bot.rs: the conversational wizard.  Steps and states mirror models.rs;
the handlers are modelled as pure functions from the loaded session state
and the input to the list of effects they perform. -/

/-- models.rs, enum PriceAlertStep. -/
inductive PriceAlertStep
  | SelectSymbol
  | EnterPrice
  | SelectCondition
  | Confirm
deriving DecidableEq, Repr

/-- models.rs, enum DepegAlertStep. -/
inductive DepegAlertStep
  | SelectSymbol
  | EnterTargetPrice
  | EnterDifferential
  | SelectExchanges
  | Confirm
deriving DecidableEq, Repr

/-- models.rs, enum PairAlertStep. -/
inductive PairAlertStep
  | SelectToken1
  | SelectToken2
  | EnterRatio
  | EnterDifferential
  | Confirm
deriving DecidableEq, Repr

/-- models.rs, enum UserState (the per-session wizard state). -/
inductive UserState
  | Idle
  | CreatingPriceAlert (step : PriceAlertStep) (symbol : Option String)
      (target_price : Option ℚ) (condition : Option AlertCondition)
  | CreatingDepegAlert (step : DepegAlertStep) (symbol : Option String)
      (target_price : Option ℚ) (differential : Option ℚ)
      (exchanges : Option (List String))
  | CreatingPairAlert (step : PairAlertStep) (token1 : Option String)
      (token2 : Option String) ( expected_ratio : Option ℚ)
      (differential : Option ℚ)
deriving DecidableEq, Repr

/-- Effects a bot handler performs, in order: persisting or clearing the
session state (db.save_user_state / db.clear_user_state), inserting an
alert (db.save_alert) and sending a chat message. -/
inductive BotEffect
  | save_user_state (chat_id : ℤ) (st : UserState)
  | clear_user_state (chat_id : ℤ)
  | save_alert (a : PriceAlert)
  | send_message (chat_id : ℤ) (text : String)
deriving DecidableEq, Repr

/-- Rust str::parse::<f64> restricted to the plain decimal notation the
wizard deals in: optional sign, an integer part, an optional fractional
part.  Unparsable strings give none. -/
def parse_f64 (s : String) : Option ℚ :=
  let natOfDigits : List Char → Option ℕ := fun cs =>
    if cs.isEmpty then none
    else cs.foldl (fun acc c =>
      acc.bind (fun n => if c.isDigit then some (10 * n + (c.toNat - 48)) else none))
      (some 0)
  let core : List Char → Option ℚ := fun cs =>
    let ip := cs.takeWhile Char.isDigit
    let rest := cs.dropWhile Char.isDigit
    match rest with
    | [] => (natOfDigits ip).map (fun n => (n : ℚ))
    | '.' :: frac =>
      match natOfDigits ip, natOfDigits frac with
      | some n, some fr => some ((n : ℚ) + (fr : ℚ) / (10 : ℚ) ^ frac.length)
      | _, _ => none
    | _ => none
  match s.data with
  | '-' :: cs => (core cs).map (fun q => -q)
  | '+' :: cs => core cs
  | cs => core cs

/-- bot.rs, TelegramBot::handle_price_alert_step: the prompt sent for each
step of the price wizard (keyboards are part of the message). -/
def price_alert_step_effects (chat_id : ℤ) (st : UserState) : List BotEffect :=
  match st with
  | .CreatingPriceAlert step _ _ _ =>
    match step with
    | .SelectSymbol =>
      [.send_message chat_id ("Selecciona la criptomoneda que quieres monitorear:")]
    | .EnterPrice =>
      [.send_message chat_id ("Ingresa el precio objetivo (ejemplo: 45000.50):")]
    | .SelectCondition =>
      [.send_message chat_id ("¿Cuándo quieres recibir la alerta?")]
    | .Confirm => []
  | _ => []

/-- bot.rs, TelegramBot::handle_message: the two text-input steps.  On a
numeric parse failure only an error prompt is sent; on success the advanced
state is saved and the next prompt is issued. -/
def handle_message (chat_id : ℤ) (state : Option UserState) (text : String) :
    List BotEffect :=
  match state with
  | none => []
  | some st =>
    match st with
    | .CreatingPriceAlert .EnterPrice symbol _ _ =>
      match parse_f64 text with
      | some price =>
        let new_state := UserState.CreatingPriceAlert .SelectCondition symbol (some price) none
        .save_user_state chat_id new_state :: price_alert_step_effects chat_id new_state
      | none =>
        [.send_message chat_id
          ("❌ Precio inválido. Por favor, ingresa un número válido (ejemplo: 45000.50):")]
    | .CreatingPairAlert .EnterRatio token1 token2 _ _ =>
      match parse_f64 text with
      | some ratio =>
        let new_state := UserState.CreatingPairAlert .EnterDifferential token1 token2 (some ratio) none
        [.save_user_state chat_id new_state,
         .send_message chat_id ("Selecciona el porcentaje de desviación permitido:")]
      | none =>
        [.send_message chat_id
          ("❌ Ratio inválido. Por favor, ingresa un número válido (ejemplo: 1.0):")]
    | _ => []

/-- bot.rs, TelegramBot::handle_callback, the depegdiff_ branch: with a
Depeg wizard state whose symbol is chosen, build the alert with
target_price 1.0 and the fixed default exchange list, save it, and on a
successful save confirm and clear the session state.  save_ok tells
whether db.save_alert succeeded. -/
def handle_depegdiff (chat_id : ℤ) (state : Option UserState) (diff : ℚ)
    (user_id : ℤ) (now : ℤ) (save_ok : Bool) : List BotEffect :=
  match state with
  | some (.CreatingDepegAlert _ (some symbol) _ _ _) =>
    let alert : PriceAlert :=
      { id := none
        user_id := user_id
        symbol := symbol
        alert_type := .Depeg 1 diff ["binance", "coinbase"]
        created_at := some now
        triggered_at := none
        is_active := true }
    if save_ok then
      [.save_alert alert,
       .send_message chat_id
         ("✅ Alerta de depeg creada!\n\nStablecoin: " ++ symbol ++
          "\nSe alertará si se desvía más de " ++ toString diff ++ "% de $1"),
       .clear_user_state chat_id]
    else
      [.send_message chat_id ("❌ Error al crear la alerta")]
  | _ => []

/-- Effect of one BotEffect on the persisted session state of the chat the
handler is serving (db.rs: save_user_state upserts the row, clear deletes
it; a missing row reads back as none). -/
def apply_effect (persisted : Option UserState) (e : BotEffect) : Option UserState :=
  match e with
  | .save_user_state _ st => some st
  | .clear_user_state _ => none
  | _ => persisted

/-- Persisted session state after the effect list of a handler runs. -/
def apply_effects (persisted : Option UserState) (es : List BotEffect) :
    Option UserState :=
  es.foldl apply_effect persisted

/-! Helper lemmas about the tick trace. -/

/-- Each alert contributes either no events or exactly a notify followed by
a mark, both tagged with the id of that alert. -/
theorem process_alert_shape (api : CryptoAPI) (f : Fetcher) (now : ℤ)
    (a : PriceAlert) :
    process_alert api f now a = [] ∨
    ∃ p, process_alert api f now a = [.notify a.id p, .mark a.id] := by
  rcases a with ⟨id, uid, sym, ty, ca, ta, ia⟩
  cases ty with
  | Price t c =>
    cases hg : get_price api f sym now with
    | error e => left; simp [process_alert, hg]
    | ok price =>
      by_cases htr :
          should_trigger_alert price ⟨id, uid, sym, .Price t c, ca, ta, ia⟩ = true
      · right; exact ⟨price.price, by simp [process_alert, hg, htr]⟩
      · left; simp [process_alert, hg, htr]
  | Depeg t d exs =>
    cases hp : exs.filterMap (fun exchange =>
        match get_price_from_exchange api f sym exchange now with
        | .ok p => some p.price
        | .error _ => none) with
    | nil => left; simp [process_alert, hp]
    | cons p ps =>
      right
      refine ⟨if |ps.foldl max p - t| > |ps.foldl min p - t| then ps.foldl max p
              else ps.foldl min p, ?_⟩
      simp [process_alert, hp]
  | PairDepeg t1 t2 er d =>
    cases h1 : get_price api f t1 now with
    | error e => left; simp [process_alert, h1]
    | ok p1 =>
      cases h2 : get_price api f t2 now with
      | error e => left; simp [process_alert, h1, h2]
      | ok p2 =>
        by_cases hgt : |(p1.price / p2.price - er) / er| * 100 > d
        · right
          exact ⟨p1.price / p2.price, by simp [process_alert, h1, h2, hgt]⟩
        · left; simp [process_alert, h1, h2, hgt]

/-- In a flattening of blocks each of which is empty or a notify-mark pair,
every mark is preceded by a notify for the same alert. -/
theorem flatten_mark_after_notify (L : List (List Event))
    (hL : ∀ l ∈ L, l = [] ∨ ∃ aid p, l = [.notify aid p, .mark aid]) :
    ∀ (i : ℕ) (aid : Option ℤ), L.flatten[i]? = some (Event.mark aid) →
      ∃ j : ℕ, j < i ∧ ∃ p, L.flatten[j]? = some (Event.notify aid p) := by
  induction L with
  | nil => intro i aid h; simp at h
  | cons l L ih =>
    have hL' : ∀ l' ∈ L, l' = [] ∨ ∃ aid p, l' = [.notify aid p, .mark aid] :=
      fun l' h' => hL l' (by simp [h'])
    intro i aid h
    rcases hL l (by simp) with rfl | ⟨aid0, p0, rfl⟩
    · simp only [List.flatten_cons, List.nil_append] at h ⊢
      exact ih hL' i aid h
    · simp only [List.flatten_cons] at h ⊢
      cases i with
      | zero =>
        rw [List.getElem?_append_left (by simp)] at h
        simp at h
      | succ i' =>
        cases i' with
        | zero =>
          rw [List.getElem?_append_left (by simp)] at h
          simp at h
          refine ⟨0, by omega, p0, ?_⟩
          rw [List.getElem?_append_left (by simp)]
          simp [h]
        | succ n =>
          rw [List.getElem?_append_right (by simp)] at h
          have h' : L.flatten[n]? = some (Event.mark aid) := by
            simpa using h
          obtain ⟨j, hj, p, hp⟩ := ih hL' n aid h'
          refine ⟨j + 2, by omega, p, ?_⟩
          rw [List.getElem?_append_right (by simp)]
          simpa using hp

/-- Every event of a tick carries the id of one of the processed alerts. -/
theorem mem_check_all_alerts (api : CryptoAPI) (f : Fetcher) (now : ℤ)
    (alerts : List PriceAlert) (ev : Event) :
    ev ∈ check_all_alerts api f now alerts →
    ∃ a ∈ alerts, (∃ p, ev = .notify a.id p) ∨ ev = .mark a.id := by
  intro h
  unfold check_all_alerts at h
  rcases List.mem_flatten.1 h with ⟨l, hl, hev⟩
  rcases List.mem_map.1 hl with ⟨a, ha, rfl⟩
  rcases process_alert_shape api f now a with h0 | ⟨p, h0⟩
  · rw [h0] at hev; simp at hev
  · rw [h0] at hev
    simp only [List.mem_cons, List.not_mem_nil, or_false] at hev
    rcases hev with hev | hev
    · exact ⟨a, ha, .inl ⟨p, hev⟩⟩
    · exact ⟨a, ha, .inr hev⟩

/-! Helper lemmas about the alert store. -/

/-- Right after mark_alert_triggered, every row with the marked id is
inactive with its trigger timestamp set. -/
theorem mark_self (db : List AlertRow) (aid n : ℤ) :
    ∀ r ∈ mark_alert_triggered db aid n,
      r.id = aid → r.is_active = false ∧ r.triggered_at ≠ none := by
  intro r hr hid
  rcases List.mem_map.1 hr with ⟨r0, hr0, rfl⟩
  by_cases h : r0.id = aid
  · rw [if_pos h]
    exact ⟨rfl, by simp⟩
  · rw [if_neg h] at hid ⊢
    exact absurd hid h

/-- mark_alert_triggered preserves the marked-row property for any id. -/
theorem mark_keeps_marked (db : List AlertRow) (a n aid : ℤ)
    (H : ∀ r ∈ db, r.id = aid → r.is_active = false ∧ r.triggered_at ≠ none) :
    ∀ r ∈ mark_alert_triggered db a n,
      r.id = aid → r.is_active = false ∧ r.triggered_at ≠ none := by
  intro r hr hid
  rcases List.mem_map.1 hr with ⟨r0, hr0, rfl⟩
  by_cases h : r0.id = a
  · rw [if_pos h]
    exact ⟨rfl, by simp⟩
  · rw [if_neg h] at hid ⊢
    exact H r0 hr0 hid

/-- Any further sequence of marks preserves the marked-row property. -/
theorem apply_marks_keeps (more : List (ℤ × ℤ)) (db : List AlertRow) (aid : ℤ)
    (H : ∀ r ∈ db, r.id = aid → r.is_active = false ∧ r.triggered_at ≠ none) :
    ∀ r ∈ apply_marks db more,
      r.id = aid → r.is_active = false ∧ r.triggered_at ≠ none := by
  induction more generalizing db with
  | nil => exact H
  | cons m rest ih =>
    obtain ⟨a, n⟩ := m
    exact ih (mark_alert_triggered db a n) (mark_keeps_marked db a n aid H)

/-! Concrete instances used in closed evaluations. -/

/-- A one-coin API configuration. -/
def api_usdt : CryptoAPI :=
  { symbol_to_id := [("USDT", "tether")]
    supported_exchanges := ["binance", "coinbase"] }

/-- An oracle whose every attempt answers price 1 (a perfectly pegged
stablecoin). -/
def fetch_peg : Fetcher := fun _ _ _ => some 1

/-- A depeg alert on USDT with a 5 percent allowed differential. -/
def usdt_depeg_alert : PriceAlert :=
  PriceAlert.mk (some 1) 7 ("USDT") (.Depeg 1 5 [("binance")]) (some 0) none true

/-- Evaluation of one tick on the pegged-price scenario: the fetch
succeeds with price exactly 1, and the Depeg arm notifies and marks. -/
theorem tick_usdt_eval :
    check_all_alerts api_usdt fetch_peg 0 [usdt_depeg_alert]
      = [Event.notify (some 1) 1, Event.mark (some 1)] := by
  have hfetch : get_price_from_exchange api_usdt fetch_peg ("USDT") ("binance") 0
      = .ok (CryptoPrice.mk ("USDT") 1 ("binance") 0) := rfl
  simp only [check_all_alerts, process_alert, usdt_depeg_alert, List.map_cons,
    List.map_nil, List.flatten_cons, List.flatten_nil, List.append_nil,
    List.filterMap_cons, List.filterMap_nil, List.foldl_nil, hfetch, ite_self]

/-! Claim theorems. -/

/-- C1: the claim says an active Depeg alert triggers iff the maximal
deviation strictly exceeds the configured differential.  The code instead
notifies and marks the alert whenever at least one exchange returned a
price: with the pegged price exactly 1, deviationPct = 0 is not above the
differential 5, yet the tick emits the notification and the mark. -/
theorem C1_depeg_fires_at_zero_deviation :
    check_all_alerts api_usdt fetch_peg 0 [usdt_depeg_alert]
      = [Event.notify (some 1) 1, Event.mark (some 1)] ∧
    ¬ (|(1 : ℚ) - 1| / 1 * 100 > 5) := by
  refine ⟨tick_usdt_eval, by norm_num⟩

/-- C2: the pure decision for Price alerts is strict comparison against the
target in the direction of the condition; equality triggers neither. -/
theorem C2_price_condition (id : Option ℤ) (uid : ℤ) (sym : String)
    (ca ta : Option ℤ) (ia : Bool) (p : CryptoPrice) (t : ℚ) :
    should_trigger_alert p (PriceAlert.mk id uid sym (.Price t .Above) ca ta ia)
      = decide (p.price > t) ∧
    should_trigger_alert p (PriceAlert.mk id uid sym (.Price t .Below) ca ta ia)
      = decide (p.price < t) ∧
    (p.price = t →
      should_trigger_alert p (PriceAlert.mk id uid sym (.Price t .Above) ca ta ia) = false ∧
      should_trigger_alert p (PriceAlert.mk id uid sym (.Price t .Below) ca ta ia) = false) := by
  refine ⟨rfl, rfl, ?_⟩
  intro h
  constructor <;> simp [should_trigger_alert, h]

/-- C2 witness: at price equal to the target neither condition triggers. -/
theorem C2_price_condition_witness :
    should_trigger_alert (CryptoPrice.mk ("BTC") 5 ("binance") 0)
      (PriceAlert.mk none 1 ("BTC") (.Price 5 .Above) none none true) = false ∧
    should_trigger_alert (CryptoPrice.mk ("BTC") 5 ("binance") 0)
      (PriceAlert.mk none 1 ("BTC") (.Price 5 .Below) none none true) = false :=
  (C2_price_condition none 1 ("BTC") none none true
    (CryptoPrice.mk ("BTC") 5 ("binance") 0) 5).2.2 rfl

/-- C4 counterexample: when the reachability check fails, PriceMonitor
start returns the error instead of starting the loop, refuting the claim
that the loop still starts ticking. -/
theorem C4_counterexample :
    monitor_start (.error ("network down")) = .errored ("network down") ∧
    monitor_start (.error ("network down")) ≠ .running :=
  ⟨rfl, fun h => StartOutcome.noConfusion h⟩

/-- C4 (amended): the verify_bot reachability check is fatal: on failure
start returns the error and the monitoring loop does not begin; only on
success does the loop run. -/
theorem C4_start_fatal_on_verify_failure (v : Except String Unit) :
    (∀ e, v = .error e →
      monitor_start v = .errored e ∧ monitor_start v ≠ .running) ∧
    (∀ u, v = .ok u → monitor_start v = .running) := by
  constructor
  · intro e he
    subst he
    exact ⟨rfl, fun h => StartOutcome.noConfusion h⟩
  · intro u hu
    subst hu
    rfl

/-- C4 witness: a concrete failed verification makes start return the
error. -/
theorem C4_start_fatal_witness :
    monitor_start (.error ("e")) = .errored ("e") :=
  ((C4_start_fatal_on_verify_failure (.error ("e"))).1 ("e") rfl).1

/-- C6: in the trace of one tick, a mark-triggered store write for an
alert occurs only at a position strictly after a notification attempt for
the same alert. -/
theorem C6_notify_before_mark (api : CryptoAPI) (f : Fetcher) (now : ℤ)
    (alerts : List PriceAlert) (i : ℕ) (aid : Option ℤ)
    (h : (check_all_alerts api f now alerts)[i]? = some (Event.mark aid)) :
    ∃ j : ℕ, j < i ∧ ∃ p,
      (check_all_alerts api f now alerts)[j]? = some (Event.notify aid p) := by
  have hshape : ∀ l ∈ alerts.map (process_alert api f now),
      l = [] ∨ ∃ aid p, l = [.notify aid p, .mark aid] := by
    intro l hl
    rcases List.mem_map.1 hl with ⟨a, ha, rfl⟩
    rcases process_alert_shape api f now a with h0 | ⟨p, h0⟩
    · exact .inl h0
    · exact .inr ⟨a.id, p, h0⟩
  exact flatten_mark_after_notify _ hshape i aid h

/-- C6 witness: in a concrete triggering tick, the mark at position 1 is
preceded by the notification at position 0. -/
theorem C6_notify_before_mark_witness :
    ∃ j : ℕ, j < 1 ∧ ∃ p,
      (check_all_alerts api_usdt fetch_peg 0 [usdt_depeg_alert])[j]?
        = some (Event.notify (some 1) p) :=
  C6_notify_before_mark api_usdt fetch_peg 0 [usdt_depeg_alert] 1 (some 1)
    (by rw [tick_usdt_eval]; rfl)

/-- C7: once an alert is marked triggered, the row keeps active = false
with its trigger timestamp set (through any further marks), it never
appears in get_active_alerts again, and no tick evaluated over such an
active-alerts snapshot ever emits another notification for it. -/
theorem C7_mark_excludes_forever (db : List AlertRow) (aid now : ℤ)
    (more : List (ℤ × ℤ)) (api : CryptoAPI) (f : Fetcher) (tnow : ℤ) :
    (∀ r ∈ apply_marks (mark_alert_triggered db aid now) more,
       r.id = aid → r.is_active = false ∧ r.triggered_at ≠ none) ∧
    (∀ a ∈ get_active_alerts (apply_marks (mark_alert_triggered db aid now) more),
       a.id ≠ some aid) ∧
    (∀ p : ℚ, Event.notify (some aid) p ∉
       check_all_alerts api f tnow
         (get_active_alerts (apply_marks (mark_alert_triggered db aid now) more))) := by
  have hkeep := apply_marks_keeps more _ aid (mark_self db aid now)
  have hexc : ∀ a ∈ get_active_alerts
      (apply_marks (mark_alert_triggered db aid now) more), a.id ≠ some aid := by
    intro a ha hida
    unfold get_active_alerts at ha
    rcases List.mem_map.1 ha with ⟨r, hr, rfl⟩
    rcases List.mem_filter.1 hr with ⟨hrdb, hcond⟩
    have hid : r.id = aid := by
      simpa [row_to_alert] using hida
    have h2 := hkeep r hrdb hid
    simp [h2.1] at hcond
  refine ⟨hkeep, hexc, ?_⟩
  intro p hmem
  rcases mem_check_all_alerts _ _ _ _ _ hmem with ⟨a, ha, hcase⟩
  rcases hcase with ⟨q, hq⟩ | hq
  · have : a.id = some aid := by
      injection hq with h1 h2
      exact h1.symm
    exact hexc a ha this
  · exact Event.noConfusion hq

/-- C3: a PairDepeg alert with both prices fetched triggers exactly when
the percentage deviation of the ratio from the expected ratio strictly
exceeds the differential; a failed fetch of either token yields no
trigger. -/
theorem C3_pair_depeg_trigger (api : CryptoAPI) (f : Fetcher) (now : ℤ)
    (id : Option ℤ) (uid : ℤ) (sym token1 token2 : String)
    ( er d : ℚ) (ca ta : Option ℤ) (ia : Bool) (her : 0 < er) :
    (∀ p1 p2 : CryptoPrice,
      get_price api f token1 now = .ok p1 →
      get_price api f token2 now = .ok p2 →
      (process_alert api f now
          (PriceAlert.mk id uid sym (.PairDepeg token1 token2 er d) ca ta ia) ≠ []
        ↔ |p1.price / p2.price - er| / er * 100 > d)) ∧
    (∀ e : String,
      get_price api f token1 now = .error e ∨ get_price api f token2 now = .error e →
      process_alert api f now
          (PriceAlert.mk id uid sym (.PairDepeg token1 token2 er d) ca ta ia) = []) := by
  constructor
  · intro p1 p2 h1 h2
    have habs : |(p1.price / p2.price - er) / er| * 100
        = |p1.price / p2.price - er| / er * 100 := by
      rw [abs_div, abs_of_pos her]
    by_cases hgt : |p1.price / p2.price - er| / er * 100 > d
    · simp [process_alert, h1, h2, habs, hgt]
    · simp [process_alert, h1, h2, habs, hgt]
  · intro e he
    rcases he with he | he
    · simp [process_alert, he]
    · cases h1 : get_price api f token1 now with
      | error e1 => simp [process_alert, h1]
      | ok p1 => simp [process_alert, h1, he]

/-- A two-coin API configuration for the ratio scenario. -/
def api_pair : CryptoAPI :=
  { symbol_to_id := [("AAA", "aaa"), ("BBB", "bbb")]
    supported_exchanges := ["binance"] }

/-- An oracle giving token AAA price 102 and any other token price 100. -/
def fetch_pair : Fetcher := fun sym _ _ => if sym == "AAA" then some 102 else some 100

/-- C3 witness: ratio 102/100 against expected ratio 1 with differential 1
deviates by 2 percent and triggers. -/
theorem C3_pair_depeg_trigger_witness :
    process_alert api_pair fetch_pair 0
        (PriceAlert.mk (some 3) 7 ("AAA/BBB") (.PairDepeg ("AAA") ("BBB") 1 1)
          (some 0) none true) ≠ [] :=
  ((C3_pair_depeg_trigger api_pair fetch_pair 0 (some 3) 7 ("AAA/BBB") ("AAA") ("BBB")
      1 1 (some 0) none true (by norm_num)).1
    (CryptoPrice.mk ("AAA") 102 ("binance") 0)
    (CryptoPrice.mk ("BBB") 100 ("binance") 0) rfl rfl).mpr
    (by
      have hpos : (0 : ℚ) < (102 : ℚ) / 100 - 1 := by norm_num
      rw [abs_of_pos hpos]
      norm_num)

/-- The retry loop performs at most `fuel` attempts. -/
theorem attempts_made_le (g : ℕ → Option ℚ) (a fuel : ℕ) :
    attempts_made g a fuel ≤ fuel := by
  induction fuel generalizing a with
  | zero => simp [attempts_made]
  | succ n ih =>
    cases hg : g a with
    | some p => simp [attempts_made, hg]
    | none =>
      have := ih (a + 1)
      simp [attempts_made, hg]
      omega

/-- Starting from a positive attempt index, every attempt sleeps first. -/
theorem sleeps_eq_attempts (g : ℕ → Option ℚ) (a fuel : ℕ) (ha : 0 < a) :
    sleeps_performed g a fuel = attempts_made g a fuel := by
  induction fuel generalizing a with
  | zero => simp [sleeps_performed, attempts_made]
  | succ n ih =>
    cases hg : g a with
    | some p => simp [sleeps_performed, attempts_made, hg, ha]
    | none =>
      have := ih (a + 1) (by omega)
      simp [sleeps_performed, attempts_made, hg, ha]
      omega

/-- Starting from attempt 0 there is one sleep less than attempts: the
delay happens between consecutive attempts. -/
theorem sleeps_zero_attempts (g : ℕ → Option ℚ) (n : ℕ) :
    sleeps_performed g 0 (n + 1) + 1 = attempts_made g 0 (n + 1) := by
  cases hg : g 0 with
  | some p => simp [sleeps_performed, attempts_made, hg]
  | none =>
    have := sleeps_eq_attempts g 1 n (by omega)
    simp [sleeps_performed, attempts_made, hg]
    omega

/-- Unfolding step of the retry loop on a failed attempt. -/
theorem run_attempts_step (g : ℕ → Option ℚ) (a fuel : ℕ) (ha : g a = none) :
    run_attempts g a (fuel + 1) = run_attempts g (a + 1) fuel := by
  simp [run_attempts, ha]

/-- C5: price fetches use a bounded retry policy of at most 3 attempts
with a sleep between consecutive attempts; when all 3 attempts fail the
fetch errors, the alert contributes no events and the tick goes on with
the remaining alerts; a success on the 3rd attempt yields a sample that is
used for evaluation in the same tick. -/
theorem C5_bounded_retry (api : CryptoAPI) (f : Fetcher) (sym exchange cid : String)
    (now : ℤ) (id : Option ℤ) (uid : ℤ) (tp dq : ℚ) (ca ta : Option ℤ) (ia : Bool)
    (rest : List PriceAlert)
    (hsupp : api.supported_exchanges.contains exchange = true)
    (hsym : assoc_get api.symbol_to_id (to_uppercase sym) = some cid) :
    attempts_made (f sym exchange) 0 MAX_RETRIES ≤ 3 ∧
    sleeps_performed (f sym exchange) 0 MAX_RETRIES + 1
      = attempts_made (f sym exchange) 0 MAX_RETRIES ∧
    (f sym exchange 0 = none → f sym exchange 1 = none → f sym exchange 2 = none →
      get_price_from_exchange api f sym exchange now
        = .error ("No se pudo obtener el precio para " ++ sym ++ " en " ++ exchange) ∧
      process_alert api f now
          (PriceAlert.mk id uid sym (.Depeg tp dq [exchange]) ca ta ia) = [] ∧
      check_all_alerts api f now
          (PriceAlert.mk id uid sym (.Depeg tp dq [exchange]) ca ta ia :: rest)
        = check_all_alerts api f now rest) ∧
    (∀ p : ℚ, f sym exchange 0 = none → f sym exchange 1 = none →
      f sym exchange 2 = some p →
      get_price_from_exchange api f sym exchange now
        = .ok (CryptoPrice.mk (to_uppercase sym) p exchange now) ∧
      process_alert api f now
          (PriceAlert.mk id uid sym (.Depeg tp dq [exchange]) ca ta ia)
        = [.notify id p, .mark id]) := by
  refine ⟨attempts_made_le (f sym exchange) 0 MAX_RETRIES,
    sleeps_zero_attempts (f sym exchange) 2, ?_, ?_⟩
  · intro h0 h1 h2
    have hmem : exchange ∈ api.supported_exchanges := by simpa using hsupp
    have e0 : run_attempts (f sym exchange) 0 MAX_RETRIES = none := by
      calc run_attempts (f sym exchange) 0 3
          = run_attempts (f sym exchange) 1 2 := run_attempts_step _ 0 2 h0
        _ = run_attempts (f sym exchange) 2 1 := run_attempts_step _ 1 1 h1
        _ = run_attempts (f sym exchange) 3 0 := run_attempts_step _ 2 0 h2
        _ = none := rfl
    have herr : get_price_from_exchange api f sym exchange now
        = .error ("No se pudo obtener el precio para " ++ sym ++ " en " ++ exchange) := by
      simp [get_price_from_exchange, hmem, hsym, e0]
    have hproc : process_alert api f now
        (PriceAlert.mk id uid sym (.Depeg tp dq [exchange]) ca ta ia) = [] := by
      simp [process_alert, herr]
    exact ⟨herr, hproc, by simp [check_all_alerts, hproc]⟩
  · intro p h0 h1 h2
    have hmem : exchange ∈ api.supported_exchanges := by simpa using hsupp
    have e0 : run_attempts (f sym exchange) 0 MAX_RETRIES = some (p, 2) := by
      calc run_attempts (f sym exchange) 0 3
          = run_attempts (f sym exchange) 1 2 := run_attempts_step _ 0 2 h0
        _ = run_attempts (f sym exchange) 2 1 := run_attempts_step _ 1 1 h1
        _ = some (p, 2) := by simp [run_attempts, h2]
    have hok : get_price_from_exchange api f sym exchange now
        = .ok (CryptoPrice.mk (to_uppercase sym) p exchange now) := by
      simp [get_price_from_exchange, hmem, hsym, e0]
    refine ⟨hok, ?_⟩
    simp [process_alert, hok, ite_self]

/-- An oracle that fails the first two attempts and succeeds on the
third with price 99/100. -/
def fetch_third : Fetcher := fun _ _ attempt => if attempt == 2 then some (99 / 100) else none

/-- C5 witness: a fetch succeeding on the 3rd attempt yields the sample
and the alert is evaluated with it in the same tick. -/
theorem C5_bounded_retry_witness :
    get_price_from_exchange api_usdt fetch_third ("USDT") ("binance") 0
      = .ok (CryptoPrice.mk (to_uppercase ("USDT")) (99 / 100) ("binance") 0) ∧
    process_alert api_usdt fetch_third 0
        (PriceAlert.mk (some 2) 7 ("USDT") (.Depeg 1 5 [("binance")]) (some 0) none true)
      = [.notify (some 2) (99 / 100), .mark (some 2)] :=
  (C5_bounded_retry api_usdt fetch_third ("USDT") ("binance") ("tether") 0 (some 2) 7
    1 5 (some 0) none true [] rfl rfl).2.2.2 (99 / 100) rfl rfl rfl

/-- C8: at a numeric-entry wizard step, an input that fails numeric
parsing only produces the re-prompt for that step and leaves the persisted
conversation state exactly as it was: no save or clear is performed. -/
theorem C8_invalid_number_no_mutation (chat_id : ℤ) (symbol : Option String)
    (tp : Option ℚ) (cond : Option AlertCondition)
    (token1 token2 : Option String) ( er dq : Option ℚ) (text : String)
    (hparse : parse_f64 text = none) :
    handle_message chat_id (some (.CreatingPriceAlert .EnterPrice symbol tp cond)) text
      = [.send_message chat_id
          ("❌ Precio inválido. Por favor, ingresa un número válido (ejemplo: 45000.50):")] ∧
    apply_effects (some (.CreatingPriceAlert .EnterPrice symbol tp cond))
        (handle_message chat_id (some (.CreatingPriceAlert .EnterPrice symbol tp cond)) text)
      = some (.CreatingPriceAlert .EnterPrice symbol tp cond) ∧
    handle_message chat_id (some (.CreatingPairAlert .EnterRatio token1 token2 er dq)) text
      = [.send_message chat_id
          ("❌ Ratio inválido. Por favor, ingresa un número válido (ejemplo: 1.0):")] ∧
    apply_effects (some (.CreatingPairAlert .EnterRatio token1 token2 er dq))
        (handle_message chat_id (some (.CreatingPairAlert .EnterRatio token1 token2 er dq)) text)
      = some (.CreatingPairAlert .EnterRatio token1 token2 er dq) := by
  have h1 : handle_message chat_id
      (some (.CreatingPriceAlert .EnterPrice symbol tp cond)) text
      = [.send_message chat_id
          ("❌ Precio inválido. Por favor, ingresa un número válido (ejemplo: 45000.50):")] := by
    simp [handle_message, hparse]
  have h2 : handle_message chat_id
      (some (.CreatingPairAlert .EnterRatio token1 token2 er dq)) text
      = [.send_message chat_id
          ("❌ Ratio inválido. Por favor, ingresa un número válido (ejemplo: 1.0):")] := by
    simp [handle_message, hparse]
  exact ⟨h1, by simp [h1, apply_effects, apply_effect],
    h2, by simp [h2, apply_effects, apply_effect]⟩

/-- C8 witness: the unparsable input abc at the EnterPrice step leaves the
state untouched. -/
theorem C8_invalid_number_no_mutation_witness :
    apply_effects (some (.CreatingPriceAlert .EnterPrice (some ("BTC")) none none))
        (handle_message 7 (some (.CreatingPriceAlert .EnterPrice (some ("BTC")) none none)) ("abc"))
      = some (.CreatingPriceAlert .EnterPrice (some ("BTC")) none none) :=
  (C8_invalid_number_no_mutation 7 (some ("BTC")) none none none none none none
    ("abc") rfl).2.1

/-- C9: completing the Depeg wizard emits the alert with target price
fixed at 1 and the documented default exchange list, and clears the
session state back to Idle in the same completion. -/
theorem C9_depeg_completion (chat_id : ℤ) (step : DepegAlertStep) (symbol : String)
    (tp d : Option ℚ) (ex : Option (List String)) (diff : ℚ) (user_id now : ℤ) :
    handle_depegdiff chat_id (some (.CreatingDepegAlert step (some symbol) tp d ex))
        diff user_id now true
      = [.save_alert (PriceAlert.mk none user_id symbol
            (.Depeg 1 diff [("binance"), ("coinbase")]) (some now) none true),
         .send_message chat_id
           ("✅ Alerta de depeg creada!\n\nStablecoin: " ++ symbol ++
            "\nSe alertará si se desvía más de " ++ toString diff ++ "% de $1"),
         .clear_user_state chat_id] ∧
    apply_effects (some (.CreatingDepegAlert step (some symbol) tp d ex))
        (handle_depegdiff chat_id (some (.CreatingDepegAlert step (some symbol) tp d ex))
          diff user_id now true)
      = none :=
  ⟨rfl, rfl⟩

/-- C10: the pure decision function returns false unconditionally on every
PairDepeg alert, for every sample. -/
theorem C10_pair_depeg_pure_false (p : CryptoPrice) (id : Option ℤ) (uid : ℤ)
    (sym token1 token2 : String) ( er d : ℚ) (ca ta : Option ℤ) (ia : Bool) :
    should_trigger_alert p
      (PriceAlert.mk id uid sym (.PairDepeg token1 token2 er d) ca ta ia) = false :=
  rfl

end CryptoMonitor
